import Mathlib

/-!
Verification development for the xdb process-execution engine.

The Go sources are shallowly embedded: pure Go functions become Lean
functions, SQL statements become functions on in-memory tables (lists of
row records), and a transaction becomes a function from a database state
to either an error (the transaction rolls back) or a new database state
(the transaction commits).  Machine integers are embedded as `Int`/`Nat`;
`float64` arithmetic of the backoff computation is embedded as exact
rational arithmetic with the explicit Go truncation `int32(...)` modelled
by `ratTrunc` (out-of-range float-to-int conversion is
implementation-defined in Go and is not modelled).  Serialized blobs
(`ToBytes`/`FromBytes` pairs, which the spec states are round-trip
identities) are embedded as the structured values themselves.

Definitions carrying a doc comment starting with `Modelled from the spec:`
embed code of this repository that is not among the provided sources
(only its callers are); they follow the spec text cited in the comment.
-/

namespace Xdb

/-! Status encodings, byte-exact per spec section 6:
Undefined=0, Running=1, Waiting=2, Completed=3, Skipped=4, Aborted=5, Failed=6. -/

def statusUndefined : Nat := 0

def statusRunning : Nat := 1

def statusWaiting : Nat := 2

def statusCompleted : Nat := 3

def statusSkipped : Nat := 4

def statusAborted : Nat := 5

def statusFailed : Nat := 6

/-! Retry policy (xdbapi.RetryPolicy) and backoff, from src/engine/backoff.go. -/

/-- The xdbapi.RetryPolicy record; every field is a nullable pointer in the
Go API, embedded as `Option`.  `BackoffCoefficient` is a float64, embedded
as an exact rational. -/
structure RetryPolicy where
  initialIntervalSeconds : Option Int := none
  backoffCoefficient : Option ℚ := none
  maximumIntervalSeconds : Option Int := none
  maximumAttempts : Option Int := none
  maximumAttemptsDurationSeconds : Option Int := none
deriving DecidableEq

/-- A retry policy after `setDefaultRetryPolicyValue`: every field present. -/
structure RetryPolicyValues where
  initialIntervalSeconds : Int
  backoffCoefficient : ℚ
  maximumIntervalSeconds : Int
  maximumAttempts : Int
  maximumAttemptsDurationSeconds : Int
deriving DecidableEq

/-- Modelled from the spec: the engine constant `defaultWorkerTaskBackoffRetryPolicy`
is not among the sources; spec section 4.H gives the defaults applied when a field
is unset: InitialInterval=1, Coefficient=2.0, MaximumInterval=60,
MaximumAttempts=0 (unbounded), MaximumAttemptsDuration=0 (unbounded). -/
def defaultWorkerTaskBackoffRetryPolicy : RetryPolicyValues :=
  { initialIntervalSeconds := 1
    backoffCoefficient := 2
    maximumIntervalSeconds := 60
    maximumAttempts := 0
    maximumAttemptsDurationSeconds := 0 }

/-- From `setDefaultRetryPolicyValue` (src/engine/backoff.go:39-59): a nil policy
becomes the empty policy, and every nil field is filled from the default policy. -/
def setDefaultRetryPolicyValue (policy : Option RetryPolicy) : RetryPolicyValues :=
  let d := defaultWorkerTaskBackoffRetryPolicy
  match policy with
  | none => d
  | some p =>
    { initialIntervalSeconds := p.initialIntervalSeconds.getD d.initialIntervalSeconds
      backoffCoefficient := p.backoffCoefficient.getD d.backoffCoefficient
      maximumIntervalSeconds := p.maximumIntervalSeconds.getD d.maximumIntervalSeconds
      maximumAttempts := p.maximumAttempts.getD d.maximumAttempts
      maximumAttemptsDurationSeconds :=
        p.maximumAttemptsDurationSeconds.getD d.maximumAttemptsDurationSeconds }

/-- The Go conversion `int32(f)` of a float64 truncates toward zero. -/
def ratTrunc (x : ℚ) : Int := if 0 ≤ x then ⌊x⌋ else ⌈x⌉

/-- The uncapped interval `int32(float64(initInterval) * math.Pow(coefficient, attempts))`
of src/engine/backoff.go:31-32, in exact rational arithmetic. -/
def backoffInterval (p : RetryPolicyValues) (completedAttempts : Int) : Int :=
  ratTrunc ((p.initialIntervalSeconds : ℚ) * p.backoffCoefficient ^ completedAttempts)

/-- The cap of src/engine/backoff.go:33-35: an interval above
`MaximumIntervalSeconds` is replaced by it. -/
def backoffIntervalCapped (p : RetryPolicyValues) (completedAttempts : Int) : Int :=
  if backoffInterval p completedAttempts > p.maximumIntervalSeconds then
    p.maximumIntervalSeconds
  else backoffInterval p completedAttempts

/-- From `GetNextBackoff` (src/engine/backoff.go:22-37).  `nowSeconds` stands for
`time.Now().Unix()`, passed explicitly.  Returns `(nextBackoffSeconds, shouldRetry)`. -/
def GetNextBackoff (nowSeconds completedAttempts firstAttemptStartTimestampSeconds : Int)
    (policy : Option RetryPolicy) : Int × Bool :=
  let p := setDefaultRetryPolicyValue policy
  if p.maximumAttempts > 0 ∧ completedAttempts ≥ p.maximumAttempts then (0, false)
  else if p.maximumAttemptsDurationSeconds > 0 ∧
      firstAttemptStartTimestampSeconds + p.maximumAttemptsDurationSeconds < nowSeconds then
    (0, false)
  else (backoffIntervalCapped p completedAttempts, true)

/-! Task processor records and checkRetry, from src/engine/api_engine_sql_impl.go. -/

/-- Immediate task types (persistence.ImmediateTaskType). -/
inductive ImmediateTaskType where
  | waitUntil
  | execute
  | newLocalQueueMessage
deriving DecidableEq

/-- persistence.WorkerTaskBackoffInfoJson. -/
structure WorkerTaskBackoffInfoJson where
  completedAttempts : Int
  firstAttemptTimestampSeconds : Int
deriving DecidableEq

/-- The state config (xdbapi.AsyncStateConfig); nullable fields are `Option`. -/
structure AsyncStateConfig where
  skipWaitUntil : Option Bool := none
  waitUntilApiRetryPolicy : Option RetryPolicy := none
  executeApiRetryPolicy : Option RetryPolicy := none
deriving DecidableEq

/-- The nil-safe getter `GetSkipWaitUntil` on a nullable `*AsyncStateConfig`:
false when the config or the field is absent. -/
def getSkipWaitUntil : Option AsyncStateConfig → Bool
  | none => false
  | some c => c.skipWaitUntil.getD false

/-- persistence.AsyncStateExecutionInfoJson: the static state info blob. -/
structure AsyncStateExecutionInfoJson where
  nameSpace : String := ""
  processId : String := ""
  processType : String := ""
  workerURL : String := ""
  stateConfig : Option AsyncStateConfig := none
deriving DecidableEq

/-- A dequeued immediate task as seen by the processor
(persistence.ImmediateTask).  The processor creates the backoff info before
any retry decision (src/engine/api_engine_sql_impl.go:436-439), so it is
embedded as always present. -/
structure ImmediateTask where
  shardId : Int := 0
  taskSequence : Int := 0
  taskType : ImmediateTaskType := ImmediateTaskType.waitUntil
  stateId : String := ""
  stateIdSequence : Nat := 0
  workerTaskBackoffInfo : WorkerTaskBackoffInfoJson
deriving DecidableEq

/-- From `checkRetry` (src/engine/api_engine_sql_impl.go:529-536): the retry
decision is `GetNextBackoff` on the task's attempt counters and the state
config's `WaitUntilApiRetryPolicy`.  A nil `StateConfig` would fault in the
source; it is embedded as an absent policy, and the theorems below only
instantiate a present config. -/
def checkRetry (nowSeconds : Int) (task : ImmediateTask)
    (info : AsyncStateExecutionInfoJson) : Int × Bool :=
  GetNextBackoff nowSeconds task.workerTaskBackoffInfo.completedAttempts
    task.workerTaskBackoffInfo.firstAttemptTimestampSeconds
    (match info.stateConfig with
     | some sc => sc.waitUntilApiRetryPolicy
     | none => none)

/-- The retry decision taken by `processExecuteTask` on a failed worker call
(src/engine/api_engine_sql_impl.go:462-472): it is exactly
`w.checkRetry(task, prep.Info)`. -/
def processExecuteTaskRetryDecision (nowSeconds : Int) (task : ImmediateTask)
    (info : AsyncStateExecutionInfoJson) : Int × Bool :=
  checkRetry nowSeconds task info

/-! Async-state-execution rows and the row-level SQL operations,
from src/extensions/postgres/transactional.go.  All operations below are
scoped to one process execution, so rows are keyed by
(StateId, StateIdSequence), mirroring the WHERE clauses, which always pin
`process_execution_id`. -/

/-- A row of `xdb_sys_async_state_executions` for one process execution
(extensions.AsyncStateExecutionRow): the two phase status columns, the
optimistic `version` column, and the opaque blobs. -/
structure AsyncStateExecutionRow where
  stateId : String
  stateIdSequence : Nat
  version : Int
  waitUntilStatus : Nat
  executeStatus : Nat
  lastFailure : Option String := none
  input : String := ""
  info : AsyncStateExecutionInfoJson := {}
deriving DecidableEq

/-- persistence.StateExecutionStatus values passed to the row-update
operations by the sql process store: the combined per-state-execution
status being written (spec section 4.C state machine). -/
inductive StateExecutionUpdateStatus where
  | waitUntilWaiting
  | executeRunning
  | completed
deriving DecidableEq

/-- extensions.AsyncStateExecutionRowForUpdateWithoutCommands. -/
structure AsyncStateExecutionRowForUpdateWithoutCommands where
  stateId : String
  stateIdSequence : Nat
  status : StateExecutionUpdateStatus
  previousVersion : Int
  lastFailure : Option String
deriving DecidableEq

/-- xdbapi command waiting types. -/
inductive CommandWaitingType where
  | emptyCommand
  | anyOfCompletion
  | allOfCompletion
deriving DecidableEq

/-- xdbapi.TimerCommand. -/
structure TimerCommand where
  delayInSeconds : Int
deriving DecidableEq

/-- xdbapi.LocalQueueCommand. -/
structure LocalQueueCommand where
  queueName : String
  count : Nat := 1
deriving DecidableEq

/-- xdbapi.CommandRequest. -/
structure CommandRequest where
  waitingType : CommandWaitingType := CommandWaitingType.emptyCommand
  timerCommands : List TimerCommand := []
  localQueueCommands : List LocalQueueCommand := []
deriving DecidableEq

/-- xdbapi.CommandResults; the wait-until path stores the empty value
`xdbapi.CommandResults{}` and no claim inspects its contents. -/
structure CommandResults where
deriving DecidableEq

/-- extensions.AsyncStateExecutionRowForUpdate, carrying the wait-until
command request and results alongside the status update.  The update query
of this revision (src/extensions/postgres/transactional.go:102-108) writes
only the version, the two phase statuses and the last failure, so the
command fields are carried but not stored. -/
structure AsyncStateExecutionRowForUpdate where
  stateId : String
  stateIdSequence : Nat
  status : StateExecutionUpdateStatus
  waitUntilCommands : CommandRequest
  waitUntilCommandResults : CommandResults
  previousVersion : Int
  lastFailure : Option String
deriving DecidableEq

/-- The pending-execution map: state id to the set of active state id
sequences (Go `map[string]map[int]bool`), embedded as an association list
whose operations drop a key once its sequence set becomes empty. -/
abbrev PendingExecutionMap := List (String × List Nat)

/-- persistence.StateExecutionSequenceMaps: the per-state-id sequence
counters together with the pending-execution map. -/
structure StateExecutionSequenceMaps where
  sequenceMap : List (String × Nat) := []
  pendingExecutionMap : PendingExecutionMap := []
deriving DecidableEq

/-- The error classification used by the embedded store operations:
`conditionalUpdateFailure` (a versioned update affected a number of rows
different from one, src/extensions/postgres/transactional.go:124-126) and
the data-corruption error of src/persistence/sql/complete_execute.go:92-95,
which carries the offending sequence maps. -/
inductive StoreError where
  | conditionalUpdateFailure
  | dataCorruption (stateId : String) (stateIdSequence : Nat) (maps : StateExecutionSequenceMaps)
deriving DecidableEq

/-- The WHERE clause of `updateAsyncStateExecutionQuery`
(src/extensions/postgres/transactional.go:107-108): key match plus
`version = :previous_version`. -/
def matchesConditionalUpdate (stateId : String) (stateIdSequence : Nat) (previousVersion : Int)
    (r : AsyncStateExecutionRow) : Bool :=
  r.stateId == stateId && r.stateIdSequence == stateIdSequence && r.version == previousVersion

/-- Modelled from the spec: the mapping from the combined
persistence-layer status to the two stored phase columns is done by
persistence row types that are not among the sources.  Per the spec
section 4.C state machine: `WaitUntilWaiting` moves the wait-until phase
to Waiting; `ExecuteRunning` completes the wait-until phase (a Skipped
phase is a terminal sink and stays) and moves the execute phase to
Running; `Completed` moves the execute phase to Completed. -/
def asyncStatePhaseColumns (status : StateExecutionUpdateStatus)
    (r : AsyncStateExecutionRow) : Nat × Nat :=
  match status with
  | StateExecutionUpdateStatus.waitUntilWaiting => (statusWaiting, r.executeStatus)
  | StateExecutionUpdateStatus.executeRunning =>
      (if r.waitUntilStatus == statusSkipped then statusSkipped else statusCompleted, statusRunning)
  | StateExecutionUpdateStatus.completed => (r.waitUntilStatus, statusCompleted)

/-- The SET clause of `updateAsyncStateExecutionQuery`
(src/extensions/postgres/transactional.go:102-106) applied to one row
matching the WHERE clause: `version = PreviousVersion + 1`, the new phase
statuses and the new last failure; non-matching rows are untouched. -/
def applyConditionalUpdate (stateId : String) (stateIdSequence : Nat) (previousVersion : Int)
    (status : StateExecutionUpdateStatus) (lastFailure : Option String)
    (r : AsyncStateExecutionRow) : AsyncStateExecutionRow :=
  if matchesConditionalUpdate stateId stateIdSequence previousVersion r then
    { r with
      version := previousVersion + 1
      waitUntilStatus := (asyncStatePhaseColumns status r).1
      executeStatus := (asyncStatePhaseColumns status r).2
      lastFailure := lastFailure }
  else r

/-- The versioned conditional update of `UpdateAsyncStateExecution`
(src/extensions/postgres/transactional.go:102-128): rows matching the key
and `version = PreviousVersion` are rewritten by the SET clause; when the
number of affected rows is not exactly one the operation fails with
`conditionalUpdateFailure` (and the enclosing transaction rolls back). -/
def conditionalUpdateAsyncState (tbl : List AsyncStateExecutionRow) (stateId : String)
    (stateIdSequence : Nat) (previousVersion : Int) (status : StateExecutionUpdateStatus)
    (lastFailure : Option String) : Except StoreError (List AsyncStateExecutionRow) :=
  if tbl.countP (fun r => matchesConditionalUpdate stateId stateIdSequence previousVersion r) == 1
  then Except.ok (tbl.map (applyConditionalUpdate stateId stateIdSequence previousVersion status lastFailure))
  else Except.error StoreError.conditionalUpdateFailure

/-- `UpdateAsyncStateExecution` applied to a full update row (the variant
carrying the command blobs, which this revision's query does not store). -/
def updateAsyncStateExecution (tbl : List AsyncStateExecutionRow)
    (row : AsyncStateExecutionRowForUpdate) : Except StoreError (List AsyncStateExecutionRow) :=
  conditionalUpdateAsyncState tbl row.stateId row.stateIdSequence row.previousVersion
    row.status row.lastFailure

/-- `UpdateAsyncStateExecutionWithoutCommands` (declared in
src/extensions/sql_db_interfaces.go:63; the postgres implementation is the
same versioned conditional update). -/
def updateAsyncStateExecutionWithoutCommands (tbl : List AsyncStateExecutionRow)
    (row : AsyncStateExecutionRowForUpdateWithoutCommands) :
    Except StoreError (List AsyncStateExecutionRow) :=
  conditionalUpdateAsyncState tbl row.stateId row.stateIdSequence row.previousVersion
    row.status row.lastFailure

/-- One row under `batchUpdateAsyncStateExecutionsToAbortRunningQuery`
(src/extensions/postgres/transactional.go:130-135), with the SQL literals
1 (Running) and 5 (Aborted): the version bumps when either phase status is
1, and each phase status equal to 1 becomes 5. -/
def abortRunningRow (r : AsyncStateExecutionRow) : AsyncStateExecutionRow :=
  { r with
    version := if r.waitUntilStatus == 1 || r.executeStatus == 1 then r.version + 1 else r.version
    waitUntilStatus := if r.waitUntilStatus == 1 then 5 else r.waitUntilStatus
    executeStatus := if r.executeStatus == 1 then 5 else r.executeStatus }

/-- `BatchUpdateAsyncStateExecutionsToAbortRunning`
(src/extensions/postgres/transactional.go:137-142): one UPDATE statement
over every async-state-execution row of the process. -/
def batchUpdateAsyncStateExecutionsToAbortRunning (tbl : List AsyncStateExecutionRow) :
    List AsyncStateExecutionRow :=
  tbl.map abortRunningRow

/-! Pending-execution map and sequence-map operations.  The Go type
persistence.StateExecutionSequenceMaps is not among the sources (only its
callers in src/persistence/sql are), so its operations are modelled from
the spec. -/

/-- Membership of (stateId, stateIdSequence) in the pending-execution map. -/
def pendingContains : PendingExecutionMap → String → Nat → Bool
  | [], _, _ => false
  | (k, seqs) :: rest, stateId, seq =>
    if k = stateId then seqs.contains seq else pendingContains rest stateId seq

/-- Modelled from the spec: `StateExecutionSequenceMaps.CompleteNewStateExecution`
removes `(StateId, StateIdSequence)` from the pending-execution map and
fails (returns `none`) when the pair is absent (spec section 4.C step 3).
A state id whose sequence set becomes empty is dropped, so that an empty
map witnesses that no state execution is pending (spec section 3
invariants; section 4.C steps 5-7 test emptiness of the map). -/
def completeNewStateExecution : PendingExecutionMap → String → Nat → Option PendingExecutionMap
  | [], _, _ => none
  | (k, seqs) :: rest, stateId, seq =>
    if k = stateId then
      if seqs.contains seq then
        let seqs' := seqs.erase seq
        some (if seqs'.isEmpty then rest else (k, seqs') :: rest)
      else none
    else (completeNewStateExecution rest stateId seq).map (fun m => (k, seqs) :: m)

/-- Adds a sequence to the pending set of a state id. -/
def pendingAdd : PendingExecutionMap → String → Nat → PendingExecutionMap
  | [], stateId, seq => [(stateId, [seq])]
  | (k, seqs) :: rest, stateId, seq =>
    if k = stateId then (k, seqs ++ [seq]) :: rest
    else (k, seqs) :: pendingAdd rest stateId seq

/-- Reads a per-state-id counter (absent keys read as 0, as for a Go map). -/
def sequenceMapGet : List (String × Nat) → String → Nat
  | [], _ => 0
  | (k, v) :: rest, stateId => if k = stateId then v else sequenceMapGet rest stateId

/-- Stores a per-state-id counter. -/
def sequenceMapSet : List (String × Nat) → String → Nat → List (String × Nat)
  | [], stateId, v => [(stateId, v)]
  | (k, w) :: rest, stateId, v =>
    if k = stateId then (k, v) :: rest else (k, w) :: sequenceMapSet rest stateId v

/-- Modelled from the spec: `StateExecutionSequenceMaps.StartNewStateExecution`
assigns the next `StateIdSequence` from the per-state-id counter and records
the new pair in the pending-execution map (spec section 4.C step 4). -/
def startNewStateExecution (maps : StateExecutionSequenceMaps) (stateId : String) :
    Nat × StateExecutionSequenceMaps :=
  let seq := sequenceMapGet maps.sequenceMap stateId + 1
  (seq,
   { sequenceMap := sequenceMapSet maps.sequenceMap stateId seq
     pendingExecutionMap := pendingAdd maps.pendingExecutionMap stateId seq })

/-! The waiting-queue map on the process row.  The Go type
persistence.StateExecutionWaitingQueues is not among the sources (only its
callers in src/persistence/sql/wait_until.go are); it is modelled from the
spec (sections 3 and 4.C): per local-queue command a waiting entry tagged
AnyOf/AllOf, plus the unconsumed messages. -/

/-- One waiting local-queue command entry of a state execution. -/
structure LocalQueueCommandWaiting where
  stateId : String
  stateIdSequence : Nat
  queueName : String
  count : Nat
  anyOfCompletion : Bool
deriving DecidableEq

/-- An unconsumed local-queue message held in the waiting-queue map. -/
structure UnconsumedLocalQueueMessage where
  queueName : String
  dedupId : String
  payload : String
deriving DecidableEq

/-- Modelled from the spec: the waiting-queue map carried on the process
row (spec section 3): waiting state-execution commands plus any unconsumed
messages. -/
structure StateExecutionWaitingQueues where
  commandEntries : List LocalQueueCommandWaiting := []
  unconsumedMessages : List UnconsumedLocalQueueMessage := []
deriving DecidableEq

/-- Modelled from the spec: `AddNewLocalQueueCommandForStateExecution`
merges a new command of a state execution into the waiting-queue map,
tagged with AnyOf vs AllOf completion (spec section 4.C,
ProcessWaitUntilExecution step (a)). -/
def addNewLocalQueueCommandForStateExecution (wq : StateExecutionWaitingQueues)
    (stateId : String) (stateIdSequence : Nat) (cmd : LocalQueueCommand)
    (anyOfCompletion : Bool) : StateExecutionWaitingQueues :=
  { wq with
    commandEntries := wq.commandEntries ++
      [{ stateId := stateId, stateIdSequence := stateIdSequence,
         queueName := cmd.queueName, count := cmd.count, anyOfCompletion := anyOfCompletion }] }

/-! Process row, tasks, local queue and the transaction state. -/

/-- persistence.ProcessExecutionStatus. -/
inductive ProcessExecutionStatus where
  | running
  | completed
  | failed
  | terminated
  | timeout
deriving DecidableEq

/-- extensions.ProcessExecutionRowForUpdate: the columns read under
`SELECT ... FOR UPDATE` and written back by `UpdateProcessExecution`
(src/extensions/postgres/transactional.go:78-90, 154-164), with the two
serialized maps embedded as structured values. -/
structure ProcessExecutionRowForUpdate where
  status : ProcessExecutionStatus
  historyEventIdSequence : Int := 0
  waitToComplete : Bool := false
  seqMaps : StateExecutionSequenceMaps := {}
  waitingQueues : StateExecutionWaitingQueues := {}
deriving DecidableEq

/-- persistence.LocalQueueMessageInfoJson carried in the Info blob of a
NewLocalQueueMessage immediate task. -/
structure LocalQueueMessageInfoJson where
  queueName : String
  dedupId : String
deriving DecidableEq

/-- extensions.ImmediateTaskRowForInsert, scoped to one process execution. -/
structure ImmediateTaskRowForInsert where
  shardId : Int
  taskType : ImmediateTaskType
  stateId : String
  stateIdSequence : Nat
  info : Option LocalQueueMessageInfoJson := none
deriving DecidableEq

/-- extensions.LocalQueueRow, scoped to one process execution. -/
structure LocalQueueRow where
  queueName : String
  dedupId : String
  payload : String
deriving DecidableEq

/-- The durable state touched by one process-store transaction, scoped to
the one process execution every operation pins: the locked process row,
the async-state-execution rows of that process, and the inserted rows of
the task and local-queue tables. -/
structure ProcessTxState where
  prcRow : ProcessExecutionRowForUpdate
  stateTable : List AsyncStateExecutionRow := []
  immediateTasks : List ImmediateTaskRowForInsert := []
  localQueue : List LocalQueueRow := []
deriving DecidableEq

/-- Modelled from the spec: the default shard constant used for
local-queue tasks (spec section 4.C, local-queue side effects); its
numeric value is not among the sources and no claim depends on it. -/
def DefaultShardId : Int := 1

/-- Fresh dedup-id minting (`uuid.MustNewUUID`) abstracted as a fixed
placeholder value; no claim depends on minted ids. -/
def generatedUuid : String := "generated-uuid"

/-- xdbapi.LocalQueueMessage: a message listed in a request's
PublishToLocalQueue, with an optional caller-supplied dedup id. -/
structure LocalQueueMessage where
  queueName : String
  dedupId : Option String := none
  payload : String := ""
deriving DecidableEq

/-- From `publishToLocalQueue` (src/unnamed/part_003:82-135): per message,
insert a local-queue row (minting a dedup id when none is supplied) and a
`NewLocalQueueMessage` immediate task on the default shard carrying the
queue name and dedup id. -/
def publishToLocalQueueTx : ProcessTxState → List LocalQueueMessage → ProcessTxState
  | db, [] => db
  | db, message :: rest =>
    let dedupId := message.dedupId.getD generatedUuid
    publishToLocalQueueTx
      { db with
        localQueue := db.localQueue ++
          [{ queueName := message.queueName, dedupId := dedupId, payload := message.payload }]
        immediateTasks := db.immediateTasks ++
          [{ shardId := DefaultShardId, taskType := ImmediateTaskType.newLocalQueueMessage,
             stateId := "", stateIdSequence := 0,
             info := some { queueName := message.queueName, dedupId := dedupId } }] }
      rest

/-! State-execution and task inserts, from src/unnamed/part_003. -/

/-- The row built by `insertAsyncStateExecution` (src/unnamed/part_003:25-56):
version 1, no failure, and the initial phase statuses decided by the state
config's SkipWaitUntil: Skipped/Running when set, Running/Undefined otherwise. -/
def asyncStateExecutionRowForInsert (stateId : String) (stateIdSeq : Nat)
    (stateConfig : Option AsyncStateConfig) (stateInput : String)
    (stateInfo : AsyncStateExecutionInfoJson) : AsyncStateExecutionRow :=
  { stateId := stateId
    stateIdSequence := stateIdSeq
    lastFailure := none
    version := 1
    input := stateInput
    info := stateInfo
    waitUntilStatus := if getSkipWaitUntil stateConfig then statusSkipped else statusRunning
    executeStatus := if getSkipWaitUntil stateConfig then statusRunning else statusUndefined }

/-- `insertAsyncStateExecution` as a table operation. -/
def insertAsyncStateExecution (tbl : List AsyncStateExecutionRow) (stateId : String)
    (stateIdSeq : Nat) (stateConfig : Option AsyncStateConfig) (stateInput : String)
    (stateInfo : AsyncStateExecutionInfoJson) : List AsyncStateExecutionRow :=
  tbl ++ [asyncStateExecutionRowForInsert stateId stateIdSeq stateConfig stateInput stateInfo]

/-- The task built by `insertImmediateTask` (src/unnamed/part_003:58-80):
type Execute when SkipWaitUntil is set, WaitUntil otherwise. -/
def immediateTaskRowForInsert (stateId : String) (stateIdSeq : Nat)
    (stateConfig : Option AsyncStateConfig) (shardId : Int) : ImmediateTaskRowForInsert :=
  { shardId := shardId
    stateId := stateId
    stateIdSequence := stateIdSeq
    info := none
    taskType := if getSkipWaitUntil stateConfig then ImmediateTaskType.execute
                else ImmediateTaskType.waitUntil }

/-- `insertImmediateTask` as a table operation. -/
def insertImmediateTask (tasks : List ImmediateTaskRowForInsert) (stateId : String)
    (stateIdSeq : Nat) (stateConfig : Option AsyncStateConfig) (shardId : Int) :
    List ImmediateTaskRowForInsert :=
  tasks ++ [immediateTaskRowForInsert stateId stateIdSeq stateConfig shardId]

/-! The wait-until transaction, from src/persistence/sql/wait_until.go. -/

/-- persistence.CompleteWaitUntilExecutionRequest. -/
structure CompleteWaitUntilExecutionRequest where
  taskShardId : Int
  stateId : String
  stateIdSequence : Nat
  previousVersion : Int
deriving DecidableEq

/-- The prepared snapshot passed back by the processor
(persistence.PrepareStateExecutionResponse); only the fields the embedded
operations read are carried. -/
structure PrepareStateExecutionResponse where
  waitUntilStatus : Nat := 0
  executeStatus : Nat := 0
  previousVersion : Int := 1
  info : AsyncStateExecutionInfoJson := {}
  input : String := ""
deriving DecidableEq

/-- persistence.ProcessWaitUntilExecutionRequest. -/
structure ProcessWaitUntilExecutionRequest where
  stateId : String
  stateIdSequence : Nat
  prepare : PrepareStateExecutionResponse
  commandRequest : CommandRequest
  publishToLocalQueue : List LocalQueueMessage := []
  taskShardId : Int := 1
deriving DecidableEq

/-- persistence.ProcessWaitUntilExecutionResponse. -/
structure ProcessWaitUntilExecutionResponse where
  hasNewImmediateTask : Bool
deriving DecidableEq

/-- From `CompleteWaitUntilExecution` (src/persistence/sql/wait_until.go:86-113):
conditional update of the state-execution row to `ExecuteRunning` at
`PreviousVersion`, then insert of an immediate task of type Execute for
that state execution on the request's shard. -/
def CompleteWaitUntilExecution (db : ProcessTxState)
    (request : CompleteWaitUntilExecutionRequest) : Except StoreError ProcessTxState :=
  match updateAsyncStateExecutionWithoutCommands db.stateTable
      { stateId := request.stateId
        stateIdSequence := request.stateIdSequence
        status := StateExecutionUpdateStatus.executeRunning
        previousVersion := request.previousVersion
        lastFailure := none } with
  | Except.error e => Except.error e
  | Except.ok tbl =>
    Except.ok
      { db with
        stateTable := tbl
        immediateTasks := db.immediateTasks ++
          [{ shardId := request.taskShardId, taskType := ImmediateTaskType.execute,
             stateId := request.stateId, stateIdSequence := request.stateIdSequence,
             info := none }] }

/-- Removes every waiting entry of one state execution. -/
def removeEntriesOf (entries : List LocalQueueCommandWaiting) (stateId : String)
    (stateIdSequence : Nat) : List LocalQueueCommandWaiting :=
  entries.filter fun e => !(e.stateId == stateId && e.stateIdSequence == stateIdSequence)

/-- Finds and removes the first waiting entry on a queue name. -/
def takeFirstMatching : List LocalQueueCommandWaiting → String →
    Option (LocalQueueCommandWaiting × List LocalQueueCommandWaiting)
  | [], _ => none
  | e :: rest, q =>
    if e.queueName == q then some (e, rest)
    else (takeFirstMatching rest q).map (fun p => (p.1, e :: p.2))

/-- Modelled from the spec: the message-consumption loop of
`ProcessLocalQueueMessage` (spec section 4.C): each inbound message is
popped against the first waiting entry on its queue; an AnyOf entry
satisfies its state execution at the first match (its other entries are
dropped), an AllOf entry satisfies its state execution once no entry of
that state execution remains; unmatched messages stay unconsumed.
Returns (remaining entries, unconsumed messages, satisfied executions). -/
def consumeMessages : List LocalQueueCommandWaiting → List UnconsumedLocalQueueMessage →
    List UnconsumedLocalQueueMessage → List (String × Nat) →
    List LocalQueueCommandWaiting × List UnconsumedLocalQueueMessage × List (String × Nat)
  | entries, [], unconsumed, satisfied => (entries, unconsumed, satisfied)
  | entries, msg :: rest, unconsumed, satisfied =>
    match takeFirstMatching entries msg.queueName with
    | none => consumeMessages entries rest (unconsumed ++ [msg]) satisfied
    | some (e, remaining) =>
      if e.anyOfCompletion then
        consumeMessages (removeEntriesOf remaining e.stateId e.stateIdSequence) rest unconsumed
          (satisfied ++ [(e.stateId, e.stateIdSequence)])
      else if (remaining.filter fun x =>
          x.stateId == e.stateId && x.stateIdSequence == e.stateIdSequence).isEmpty then
        consumeMessages remaining rest unconsumed (satisfied ++ [(e.stateId, e.stateIdSequence)])
      else consumeMessages remaining rest unconsumed satisfied

/-- Modelled from the spec: for each satisfied state execution,
`ProcessLocalQueueMessage` conditionally updates it to `ExecuteRunning`
at its current version and inserts an Execute immediate task
(spec section 4.C). -/
def completeSatisfiedStateExecutions : ProcessTxState → Int → List (String × Nat) →
    Except StoreError ProcessTxState
  | db, _, [] => Except.ok db
  | db, shard, (stateId, seq) :: rest =>
    match db.stateTable.find? (fun r => r.stateId == stateId && r.stateIdSequence == seq) with
    | none => Except.error StoreError.conditionalUpdateFailure
    | some r =>
      match conditionalUpdateAsyncState db.stateTable stateId seq r.version
          StateExecutionUpdateStatus.executeRunning none with
      | Except.error e => Except.error e
      | Except.ok tbl =>
        completeSatisfiedStateExecutions
          { db with
            stateTable := tbl
            immediateTasks := db.immediateTasks ++
              [{ shardId := shard, taskType := ImmediateTaskType.execute,
                 stateId := stateId, stateIdSequence := seq, info := none }] }
          shard rest

/-- persistence.ProcessLocalQueueMessagesResponse. -/
structure ProcessLocalQueueMessagesResponse where
  hasNewImmediateTask : Bool
deriving DecidableEq

/-- Modelled from the spec: `doProcessLocalQueueMessageTx`
(spec section 4.C, ProcessLocalQueueMessage): under the process row lock,
consume the unconsumed messages plus the inbound ones against the
waiting-queue map, write the map back, and complete every satisfied state
execution; a new immediate task exists iff some execution was satisfied. -/
def doProcessLocalQueueMessageTx (db : ProcessTxState) (taskShardId : Int)
    (messages : List UnconsumedLocalQueueMessage) :
    Except StoreError (ProcessTxState × ProcessLocalQueueMessagesResponse) :=
  let wq := db.prcRow.waitingQueues
  let consumed := consumeMessages wq.commandEntries (wq.unconsumedMessages ++ messages) [] []
  let db1 :=
    { db with
      prcRow :=
        { db.prcRow with
          waitingQueues :=
            { commandEntries := consumed.1, unconsumedMessages := consumed.2.1 } } }
  match completeSatisfiedStateExecutions db1 taskShardId consumed.2.2 with
  | Except.error e => Except.error e
  | Except.ok db2 => Except.ok (db2, { hasNewImmediateTask := !consumed.2.2.isEmpty })

/-- From `updateWaitUntilExecution` (src/persistence/sql/wait_until.go:115-208):
step 1, when local-queue commands are present, locks the process row and
merges each command into the waiting-queue map, remembering whether
unconsumed messages exist; step 2 conditionally updates the
state-execution row to `WaitUntilWaiting`, storing the new command request
and empty command results; step 3 consumes unconsumed messages within the
same transaction when step 1 found any. -/
def updateWaitUntilExecution (db : ProcessTxState)
    (request : ProcessWaitUntilExecutionRequest) :
    Except StoreError (ProcessTxState × ProcessWaitUntilExecutionResponse) :=
  let step1 :=
    if request.commandRequest.localQueueCommands.isEmpty then (db, false)
    else
      let wq := request.commandRequest.localQueueCommands.foldl
        (fun wq c =>
          addNewLocalQueueCommandForStateExecution wq request.stateId request.stateIdSequence c
            (request.commandRequest.waitingType == CommandWaitingType.anyOfCompletion))
        db.prcRow.waitingQueues
      ({ db with prcRow := { db.prcRow with waitingQueues := wq } },
       !wq.unconsumedMessages.isEmpty)
  let db1 := step1.1
  let toConsumeUnconsumedMessages := step1.2
  match updateAsyncStateExecution db1.stateTable
      { stateId := request.stateId
        stateIdSequence := request.stateIdSequence
        status := StateExecutionUpdateStatus.waitUntilWaiting
        waitUntilCommands := request.commandRequest
        waitUntilCommandResults := {}
        previousVersion := request.prepare.previousVersion
        lastFailure := none } with
  | Except.error e => Except.error e
  | Except.ok tbl =>
    let db2 := { db1 with stateTable := tbl }
    if toConsumeUnconsumedMessages then
      match doProcessLocalQueueMessageTx db2 request.taskShardId [] with
      | Except.error e => Except.error e
      | Except.ok (db3, resp) =>
        Except.ok (db3, { hasNewImmediateTask := resp.hasNewImmediateTask })
    else Except.ok (db2, { hasNewImmediateTask := false })

/-- From `doProcessWaitUntilExecutionTx` (src/persistence/sql/wait_until.go:48-84):
an `EMPTY_COMMAND` waiting type performs `CompleteWaitUntilExecution` and
reports a new immediate task; any other waiting type goes through
`updateWaitUntilExecution`; either way the request's PublishToLocalQueue
messages are appended, and a non-empty publish list also reports a new
immediate task. -/
def doProcessWaitUntilExecutionTx (db : ProcessTxState)
    (request : ProcessWaitUntilExecutionRequest) :
    Except StoreError (ProcessTxState × ProcessWaitUntilExecutionResponse) :=
  let branch :=
    if request.commandRequest.waitingType == CommandWaitingType.emptyCommand then
      match CompleteWaitUntilExecution db
          { taskShardId := request.taskShardId
            stateId := request.stateId
            stateIdSequence := request.stateIdSequence
            previousVersion := request.prepare.previousVersion } with
      | Except.error e => Except.error e
      | Except.ok db1 => Except.ok (db1, true)
    else
      match updateWaitUntilExecution db request with
      | Except.error e => Except.error e
      | Except.ok (db1, resp) => Except.ok (db1, resp.hasNewImmediateTask)
  match branch with
  | Except.error e => Except.error e
  | Except.ok (db1, hasNewImmediateTask) =>
    let db2 := publishToLocalQueueTx db1 request.publishToLocalQueue
    Except.ok (db2,
      { hasNewImmediateTask := hasNewImmediateTask || !request.publishToLocalQueue.isEmpty })

/-- The transaction wrapper `ProcessWaitUntilExecution`
(src/persistence/sql/wait_until.go:24-46): commit on success, roll back on
error (the durable state is then unchanged). -/
def ProcessWaitUntilExecution (db : ProcessTxState)
    (request : ProcessWaitUntilExecutionRequest) :
    ProcessTxState × Except StoreError ProcessWaitUntilExecutionResponse :=
  match doProcessWaitUntilExecutionTx db request with
  | Except.ok (db', resp) => (db', Except.ok resp)
  | Except.error e => (db, Except.error e)

/-! The complete-execute transaction, from src/persistence/sql/complete_execute.go. -/

/-- xdbapi.ThreadCloseType. -/
inductive ThreadCloseType where
  | gracefulCompleteProcess
  | forceCompleteProcess
  | forceFailProcess
  | deadEnd
deriving DecidableEq

/-- xdbapi.ThreadCloseDecision. -/
structure ThreadCloseDecision where
  closeType : ThreadCloseType
deriving DecidableEq

/-- xdbapi.StateMovement: one next state of a state decision. -/
structure StateMovement where
  stateId : String
  stateConfig : Option AsyncStateConfig := none
  stateInput : String := ""
deriving DecidableEq

/-- xdbapi.StateDecision. -/
structure StateDecision where
  nextStates : List StateMovement := []
  threadCloseDecision : Option ThreadCloseDecision := none
deriving DecidableEq

/-- persistence.CompleteExecuteExecutionRequest. -/
structure CompleteExecuteExecutionRequest where
  stateId : String
  stateIdSequence : Nat
  prepare : PrepareStateExecutionResponse
  stateDecision : StateDecision
  publishToLocalQueue : List LocalQueueMessage := []
  taskShardId : Int := 1
deriving DecidableEq

/-- persistence.CompleteExecuteExecutionResponse. -/
structure CompleteExecuteExecutionResponse where
  hasNewImmediateTask : Bool
deriving DecidableEq

/-- Step 2-2 of `doCompleteExecuteExecutionTx`
(src/persistence/sql/complete_execute.go:97-130): for each next state,
assign a fresh sequence from the per-state-id counter, insert its
state-execution row (reusing the prior state's info blob verbatim) and its
immediate task on the request's shard. -/
def applyNextStates : StateExecutionSequenceMaps → List AsyncStateExecutionRow →
    List ImmediateTaskRowForInsert → List StateMovement → AsyncStateExecutionInfoJson → Int →
    StateExecutionSequenceMaps × List AsyncStateExecutionRow × List ImmediateTaskRowForInsert
  | maps, tbl, tasks, [], _, _ => (maps, tbl, tasks)
  | maps, tbl, tasks, next :: rest, info, shard =>
    let started := startNewStateExecution maps next.stateId
    applyNextStates started.2
      (insertAsyncStateExecution tbl next.stateId started.1 next.stateConfig next.stateInput info)
      (insertImmediateTask tasks next.stateId started.1 next.stateConfig shard)
      rest info shard

/-- The process-level outcome of steps 2-3 to 7 of
`doCompleteExecuteExecutionTx`. -/
structure CloseOutcome where
  status : ProcessExecutionStatus
  waitToComplete : Bool
  maps : StateExecutionSequenceMaps
  toAbort : Bool
deriving DecidableEq

/-- Steps 2-3 to 7 of `doCompleteExecuteExecutionTx`
(src/persistence/sql/complete_execute.go:132-164):
`toGracefullyComplete` is WaitToComplete with an empty pending map; when it
does not already hold and the decision closes the thread,
GRACEFUL_COMPLETE_PROCESS arms WaitToComplete and recomputes it,
FORCE_COMPLETE_PROCESS / FORCE_FAIL_PROCESS set the terminal status, clear
the pending map and schedule an abort when the pending map was non-empty,
and DEAD_END does nothing; finally a graceful completion sets the status
to Completed. -/
def applyThreadClose (status0 : ProcessExecutionStatus) (wait0 : Bool)
    (maps2 : StateExecutionSequenceMaps) (decision : StateDecision) : CloseOutcome :=
  let toGrace0 := wait0 && maps2.pendingExecutionMap.isEmpty
  let step :=
    match decision.threadCloseDecision with
    | some tc =>
      if toGrace0 then (status0, wait0, maps2, toGrace0, false)
      else
        match tc.closeType with
        | ThreadCloseType.gracefulCompleteProcess =>
            (status0, true, maps2, maps2.pendingExecutionMap.isEmpty, false)
        | ThreadCloseType.forceCompleteProcess =>
            (ProcessExecutionStatus.completed, wait0, { maps2 with pendingExecutionMap := [] },
             toGrace0, !maps2.pendingExecutionMap.isEmpty)
        | ThreadCloseType.forceFailProcess =>
            (ProcessExecutionStatus.failed, wait0, { maps2 with pendingExecutionMap := [] },
             toGrace0, !maps2.pendingExecutionMap.isEmpty)
        | ThreadCloseType.deadEnd => (status0, wait0, maps2, toGrace0, false)
    | none => (status0, wait0, maps2, toGrace0, false)
  { status := if step.2.2.2.1 then ProcessExecutionStatus.completed else step.1
    waitToComplete := step.2.1
    maps := step.2.2.1
    toAbort := step.2.2.2.2 }

/-- From `doCompleteExecuteExecutionTx`
(src/persistence/sql/complete_execute.go:51-200): lock the process row;
conditionally mark the current state execution Completed; remove it from
the pending-execution map, failing with the data-corruption error (which
carries the offending maps) when absent; insert the decision's next states
and their tasks; apply the thread-close logic; batch-abort the running
state executions when scheduled; write the mutated maps back on the
process row; and append the published local-queue messages.  The response
reports a new immediate task iff next states or published messages were
inserted. -/
def doCompleteExecuteExecutionTx (db : ProcessTxState)
    (request : CompleteExecuteExecutionRequest) :
    Except StoreError (ProcessTxState × CompleteExecuteExecutionResponse) :=
  let prcRow := db.prcRow
  match updateAsyncStateExecutionWithoutCommands db.stateTable
      { stateId := request.stateId
        stateIdSequence := request.stateIdSequence
        status := StateExecutionUpdateStatus.completed
        previousVersion := request.prepare.previousVersion
        lastFailure := none } with
  | Except.error e => Except.error e
  | Except.ok stateTable1 =>
    let maps := prcRow.seqMaps
    match completeNewStateExecution maps.pendingExecutionMap request.stateId
        request.stateIdSequence with
    | none =>
      Except.error (StoreError.dataCorruption request.stateId request.stateIdSequence maps)
    | some pending1 =>
      let maps1 := { maps with pendingExecutionMap := pending1 }
      let hasNewImmediateTask := !request.stateDecision.nextStates.isEmpty
      let stepNext := applyNextStates maps1 stateTable1 db.immediateTasks
        request.stateDecision.nextStates request.prepare.info request.taskShardId
      let outcome := applyThreadClose prcRow.status prcRow.waitToComplete stepNext.1
        request.stateDecision
      let stateTable3 :=
        if outcome.toAbort then batchUpdateAsyncStateExecutionsToAbortRunning stepNext.2.1
        else stepNext.2.1
      let prcRow' :=
        { prcRow with
          status := outcome.status
          waitToComplete := outcome.waitToComplete
          seqMaps := outcome.maps }
      let db' := publishToLocalQueueTx
        { prcRow := prcRow', stateTable := stateTable3, immediateTasks := stepNext.2.2,
          localQueue := db.localQueue }
        request.publishToLocalQueue
      Except.ok (db',
        { hasNewImmediateTask := hasNewImmediateTask || !request.publishToLocalQueue.isEmpty })

/-- The transaction wrapper `CompleteExecuteExecution`
(src/persistence/sql/complete_execute.go:26-49): commit on success, roll
back on error (the durable state is then unchanged). -/
def CompleteExecuteExecution (db : ProcessTxState)
    (request : CompleteExecuteExecutionRequest) :
    ProcessTxState × Except StoreError CompleteExecuteExecutionResponse :=
  match doCompleteExecuteExecutionTx db request with
  | Except.ok (db', resp) => (db', Except.ok resp)
  | Except.error e => (db, Except.error e)

/-! The API engine StartProcess, from src/engine/api_engine_sql_impl.go:29-162
(the APIEngineSQLImpl revision, which uses the current-process-execution
pointer table and worker-task naming). -/

/-- extensions.CurrentProcessExecutionRow: the latest-process pointer,
keyed per (namespace, processId). -/
structure CurrentProcessExecutionRow where
  nameSpace : String
  processId : String
  processExecutionId : String
deriving DecidableEq

/-- extensions.ProcessExecutionInfoJson. -/
structure ProcessExecutionInfoJson where
  processType : String := ""
  workerURL : String := ""
deriving DecidableEq

/-- extensions.ProcessExecutionRow as inserted by StartProcess. -/
structure EngineProcessExecutionRow where
  processExecutionId : String
  isCurrent : Bool
  status : ProcessExecutionStatus
  historyEventIdSequence : Int
  stateIdSequence : List (String × Nat)
  nameSpace : String
  processId : String
  startTime : Int
  timeoutSeconds : Int
  info : ProcessExecutionInfoJson
deriving DecidableEq

/-- The engine revision's async-state-execution row, carrying the process
execution id (the engine database spans processes). -/
structure EngineAsyncStateExecutionRow where
  processExecutionId : String
  stateId : String
  stateIdSequence : Nat
  previousVersion : Int
  input : String
  info : AsyncStateExecutionInfoJson
  waitUntilStatus : Nat
  executeStatus : Nat
deriving DecidableEq

/-- extensions.WorkerTaskType of this revision (worker task = immediate task). -/
inductive WorkerTaskType where
  | waitUntil
  | execute
deriving DecidableEq

/-- extensions.WorkerTaskRowForInsert. -/
structure WorkerTaskRowForInsert where
  shardId : Int
  processExecutionId : String
  stateId : String
  stateIdSequence : Nat
  taskType : WorkerTaskType
deriving DecidableEq

/-- The tables StartProcess writes. -/
structure EngineDB where
  currentProcessExecutions : List CurrentProcessExecutionRow := []
  processExecutions : List EngineProcessExecutionRow := []
  asyncStateExecutions : List EngineAsyncStateExecutionRow := []
  workerTasks : List WorkerTaskRowForInsert := []
deriving DecidableEq

/-- xdbapi.ProcessStartConfig (nullable TimeoutSeconds). -/
structure ProcessStartConfig where
  timeoutSeconds : Option Int := none
deriving DecidableEq

/-- xdbapi.ProcessExecutionStartRequest. -/
structure ProcessExecutionStartRequest where
  nameSpace : String
  processId : String
  processType : String := ""
  workerUrl : String := ""
  startStateId : Option String := none
  startStateInput : String := ""
  startStateConfig : Option AsyncStateConfig := none
  processStartConfig : Option ProcessStartConfig := none
deriving DecidableEq

/-- xdbapi.ProcessExecutionStartResponse. -/
structure ProcessExecutionStartResponse where
  processExecutionId : String
deriving DecidableEq

/-- The engine error classification StartProcess relies on: the driver's
duplicate-entry error on the unique (namespace, processId) key of the
current-process-execution table. -/
inductive EngineError where
  | dupEntry
deriving DecidableEq

/-- Whether the current-process-execution pointer table already holds a row
for (namespace, processId): inserting then yields the duplicate-entry error. -/
def currentProcessExists (db : EngineDB) (nameSpace processId : String) : Bool :=
  db.currentProcessExecutions.any fun r =>
    r.nameSpace == nameSpace && r.processId == processId

/-- From `StartProcess` (src/engine/api_engine_sql_impl.go:29-162), with the
minted process execution id and the clock passed explicitly.  In one
transaction: insert the current-process-execution pointer, and on a
duplicate-entry error roll back and return `alreadyStarted = true` with a
nil error (the returned database is the input, unchanged); otherwise,
when a start state is present, insert its state-execution row (initial
statuses per SkipWaitUntil, version 1) and its worker task (Execute when
skipping wait-until, WaitUntil otherwise) on the default shard; insert the
process row with status Running and the sequence map holding the start
state (if any); commit.  Returns (database, response, alreadyStarted, error). -/
def startProcess (db : EngineDB) (request : ProcessExecutionStartRequest)
    (prcExeId : String) (now : Int) :
    EngineDB × Option ProcessExecutionStartResponse × Bool × Option EngineError :=
  if currentProcessExists db request.nameSpace request.processId then
    (db, none, true, none)
  else
    let db1 :=
      { db with
        currentProcessExecutions := db.currentProcessExecutions ++
          [({ nameSpace := request.nameSpace, processId := request.processId,
              processExecutionId := prcExeId } : CurrentProcessExecutionRow)] }
    let timeoutSeconds :=
      match request.processStartConfig with
      | some sc => sc.timeoutSeconds.getD 0
      | none => 0
    let withState :=
      match request.startStateId with
      | some stateId =>
        let stateRow : EngineAsyncStateExecutionRow :=
          { processExecutionId := prcExeId
            stateId := stateId
            stateIdSequence := 1
            previousVersion := 1
            input := request.startStateInput
            info := { processType := request.processType, workerURL := request.workerUrl }
            waitUntilStatus :=
              if getSkipWaitUntil request.startStateConfig then statusSkipped else statusRunning
            executeStatus :=
              if getSkipWaitUntil request.startStateConfig then statusRunning
              else statusUndefined }
        let workerTask : WorkerTaskRowForInsert :=
          { shardId := DefaultShardId
            processExecutionId := prcExeId
            stateId := stateId
            stateIdSequence := 1
            taskType :=
              if getSkipWaitUntil request.startStateConfig then WorkerTaskType.execute
              else WorkerTaskType.waitUntil }
        ({ db1 with
            asyncStateExecutions := db1.asyncStateExecutions ++ [stateRow]
            workerTasks := db1.workerTasks ++ [workerTask] },
         [(stateId, 1)])
      | none => (db1, ([] : List (String × Nat)))
    let row : EngineProcessExecutionRow :=
      { processExecutionId := prcExeId
        isCurrent := true
        status := ProcessExecutionStatus.running
        historyEventIdSequence := 0
        stateIdSequence := withState.2
        nameSpace := request.nameSpace
        processId := request.processId
        startTime := now
        timeoutSeconds := timeoutSeconds
        info := { processType := request.processType, workerURL := request.workerUrl } }
    ({ withState.1 with processExecutions := withState.1.processExecutions ++ [row] },
     some { processExecutionId := prcExeId }, false, none)

/-! Concrete fixtures evaluated by the witnesses below. -/

/-- A retry policy with a maximum-attempts bound, for the backoff witness. -/
def c3Policy : Option RetryPolicy := some { maximumAttempts := some 3 }

/-- A retry policy with a backoff coefficient below one. -/
def c9Policy : Option RetryPolicy :=
  some { initialIntervalSeconds := some 4, backoffCoefficient := some (1 / 2 : ℚ) }

/-- A state config with distinct wait-until and execute retry policies. -/
def c10Cfg : AsyncStateConfig :=
  { waitUntilApiRetryPolicy := some { maximumAttempts := some 5 }
    executeApiRetryPolicy := some { maximumAttempts := some 1 } }

/-- A prepared-info record carrying `c10Cfg`. -/
def c10Info : AsyncStateExecutionInfoJson := { stateConfig := some c10Cfg }

/-- An Execute-phase immediate task on its second attempt. -/
def c10Task : ImmediateTask :=
  { taskType := ImmediateTaskType.execute, workerTaskBackoffInfo := ⟨2, 50⟩ }

/-- A running async-state-execution row (wait-until phase running). -/
def c1RowA : AsyncStateExecutionRow :=
  { stateId := "a", stateIdSequence := 1, version := 5, waitUntilStatus := 1, executeStatus := 0 }

/-- A running async-state-execution row (execute phase running). -/
def c1RowB : AsyncStateExecutionRow :=
  { stateId := "b", stateIdSequence := 1, version := 9, waitUntilStatus := 3, executeStatus := 1 }

/-- A one-state running process about to force-complete: state "S" pending,
its execute phase running at version 1. -/
def c2Db : ProcessTxState :=
  { prcRow :=
      { status := ProcessExecutionStatus.running
        seqMaps := { sequenceMap := [("S", 1)], pendingExecutionMap := [("S", [1])] } }
    stateTable :=
      [{ stateId := "S", stateIdSequence := 1, version := 1,
         waitUntilStatus := statusSkipped, executeStatus := statusRunning }] }

/-- A complete-execute request for ("S", 1) deciding FORCE_COMPLETE_PROCESS. -/
def c2Request : CompleteExecuteExecutionRequest :=
  { stateId := "S", stateIdSequence := 1
    prepare := { previousVersion := 1 }
    stateDecision :=
      { threadCloseDecision := some { closeType := ThreadCloseType.forceCompleteProcess } } }

/-- The committed state of the force-complete on `c2Db`: status Completed,
empty pending map, the completed row at version 2. -/
def c2DbOut : ProcessTxState :=
  { prcRow :=
      { status := ProcessExecutionStatus.completed
        seqMaps := { sequenceMap := [("S", 1)], pendingExecutionMap := [] } }
    stateTable :=
      [{ stateId := "S", stateIdSequence := 1, version := 2,
         waitUntilStatus := statusSkipped, executeStatus := statusCompleted }] }

/-- A process whose pending map holds only "T", while the row being
completed is "S": completing "S" is data corruption. -/
def c5Db : ProcessTxState :=
  { prcRow :=
      { status := ProcessExecutionStatus.running
        seqMaps := { sequenceMap := [("T", 1)], pendingExecutionMap := [("T", [1])] } }
    stateTable :=
      [{ stateId := "S", stateIdSequence := 1, version := 1,
         waitUntilStatus := statusSkipped, executeStatus := statusRunning }] }

/-- A complete-execute request for the absent ("S", 1). -/
def c5Request : CompleteExecuteExecutionRequest :=
  { stateId := "S", stateIdSequence := 1
    prepare := { previousVersion := 1 }
    stateDecision := {} }

/-- A process whose state ("S", 1) has its wait-until phase running at
version 2, about to report an empty command request. -/
def c7Db : ProcessTxState :=
  { prcRow := { status := ProcessExecutionStatus.running }
    stateTable :=
      [{ stateId := "S", stateIdSequence := 1, version := 2,
         waitUntilStatus := statusRunning, executeStatus := statusUndefined }] }

/-- A wait-until result for ("S", 1) whose command request is EMPTY_COMMAND. -/
def c7Request : ProcessWaitUntilExecutionRequest :=
  { stateId := "S", stateIdSequence := 1
    prepare := { previousVersion := 2 }
    commandRequest := {} }

/-- A two-state running process; completing "S1" will force-fail and must
abort the still-running "S2". -/
def c8Db : ProcessTxState :=
  { prcRow :=
      { status := ProcessExecutionStatus.running
        seqMaps :=
          { sequenceMap := [("S1", 1), ("S2", 1)]
            pendingExecutionMap := [("S1", [1]), ("S2", [1])] } }
    stateTable :=
      [{ stateId := "S1", stateIdSequence := 1, version := 1,
         waitUntilStatus := statusSkipped, executeStatus := statusRunning },
       { stateId := "S2", stateIdSequence := 1, version := 1,
         waitUntilStatus := statusRunning, executeStatus := statusUndefined }] }

/-- A complete-execute request for ("S1", 1) deciding FORCE_FAIL_PROCESS. -/
def c8Request : CompleteExecuteExecutionRequest :=
  { stateId := "S1", stateIdSequence := 1
    prepare := { previousVersion := 1 }
    stateDecision :=
      { threadCloseDecision := some { closeType := ThreadCloseType.forceFailProcess } } }

/-- The state table of `c8Db` after the step-1 conditional update marking
("S1", 1) Completed at version 2. -/
def c8T1 : List AsyncStateExecutionRow :=
  [{ stateId := "S1", stateIdSequence := 1, version := 2,
     waitUntilStatus := statusSkipped, executeStatus := statusCompleted },
   { stateId := "S2", stateIdSequence := 1, version := 1,
     waitUntilStatus := statusRunning, executeStatus := statusUndefined }]

/-- An engine database already holding the latest-process pointer ("n", "p"). -/
def c4Db : EngineDB :=
  { currentProcessExecutions :=
      [{ nameSpace := "n", processId := "p", processExecutionId := "e0" }] }

/-- A start request for the already-started ("n", "p"). -/
def c4Request : ProcessExecutionStartRequest := { nameSpace := "n", processId := "p" }

end Xdb

namespace Xdb

theorem backoffIntervalCapped_eq_min (p : RetryPolicyValues) (a : Int) :
    backoffIntervalCapped p a = min p.maximumIntervalSeconds (backoffInterval p a) := by
  unfold backoffIntervalCapped
  split <;> omega

theorem backoffIntervalCapped_le_max (p : RetryPolicyValues) (a : Int) :
    backoffIntervalCapped p a ≤ p.maximumIntervalSeconds := by
  unfold backoffIntervalCapped
  split <;> omega

/-- C3: `GetNextBackoff` returns shouldRetry=false when the (defaulted)
policy has MaximumAttempts > 0 and completedAttempts is at least it;
returns shouldRetry=false when MaximumAttemptsDurationSeconds > 0 and the
first attempt timestamp plus that duration is before now; and otherwise
returns shouldRetry=true with the interval
min(MaximumIntervalSeconds, InitialIntervalSeconds * BackoffCoefficient ^ completedAttempts),
the product truncated to an integer as in the source. -/
theorem c3_getNextBackoff_cases (now a ts : Int) (policy : Option RetryPolicy) :
    ((setDefaultRetryPolicyValue policy).maximumAttempts > 0 ∧
        a ≥ (setDefaultRetryPolicyValue policy).maximumAttempts →
      GetNextBackoff now a ts policy = (0, false)) ∧
    (¬((setDefaultRetryPolicyValue policy).maximumAttempts > 0 ∧
        a ≥ (setDefaultRetryPolicyValue policy).maximumAttempts) →
      (setDefaultRetryPolicyValue policy).maximumAttemptsDurationSeconds > 0 ∧
        ts + (setDefaultRetryPolicyValue policy).maximumAttemptsDurationSeconds < now →
      GetNextBackoff now a ts policy = (0, false)) ∧
    (¬((setDefaultRetryPolicyValue policy).maximumAttempts > 0 ∧
        a ≥ (setDefaultRetryPolicyValue policy).maximumAttempts) →
      ¬((setDefaultRetryPolicyValue policy).maximumAttemptsDurationSeconds > 0 ∧
        ts + (setDefaultRetryPolicyValue policy).maximumAttemptsDurationSeconds < now) →
      GetNextBackoff now a ts policy =
        (min (setDefaultRetryPolicyValue policy).maximumIntervalSeconds
          (ratTrunc (((setDefaultRetryPolicyValue policy).initialIntervalSeconds : ℚ) *
            (setDefaultRetryPolicyValue policy).backoffCoefficient ^ a)), true)) := by
  refine ⟨fun h => ?_, fun h1 h2 => ?_, fun h1 h2 => ?_⟩
  · simp only [GetNextBackoff]
    rw [if_pos h]
  · simp only [GetNextBackoff]
    rw [if_neg h1, if_pos h2]
  · simp only [GetNextBackoff]
    rw [if_neg h1, if_neg h2, backoffIntervalCapped_eq_min]
    rfl

/-- C3 witness: with MaximumAttempts = 3, attempt count 5 yields no retry. -/
theorem c3_getNextBackoff_cases_witness :
    ((setDefaultRetryPolicyValue c3Policy).maximumAttempts > 0 ∧
      (5 : Int) ≥ (setDefaultRetryPolicyValue c3Policy).maximumAttempts) ∧
    GetNextBackoff 100 5 0 c3Policy = (0, false) :=
  ⟨by decide, (c3_getNextBackoff_cases 100 5 0 c3Policy).1 (by decide)⟩

/-- C9 counterexample: with BackoffCoefficient = 1/2 and
InitialIntervalSeconds = 4, both attempt counts 0 and 1 allow a retry but
the interval decreases from 4 to 2, so the backoff is not monotonic
non-decreasing as the claim states. -/
theorem c9_counterexample_backoff_decreases :
    GetNextBackoff 0 0 0 c9Policy = (4, true) ∧
    GetNextBackoff 0 1 0 c9Policy = (2, true) ∧
    ¬((4 : Int) ≤ 2) :=
  ⟨by norm_num [GetNextBackoff, setDefaultRetryPolicyValue, c9Policy,
      defaultWorkerTaskBackoffRetryPolicy, backoffIntervalCapped, backoffInterval, ratTrunc],
   by norm_num [GetNextBackoff, setDefaultRetryPolicyValue, c9Policy,
      defaultWorkerTaskBackoffRetryPolicy, backoffIntervalCapped, backoffInterval, ratTrunc],
   by decide⟩

/-- C9 amended: for a fixed policy and first-attempt timestamp, whenever
two attempt counts a ≤ b both allow a retry, the interval at a is at most
the interval at b, provided the (defaulted) BackoffCoefficient is at least
one and the (defaulted) InitialIntervalSeconds is nonnegative (the
counterexample shows the restriction on the coefficient is necessary);
and, unconditionally, every returned interval is at most the (defaulted)
MaximumIntervalSeconds. -/
theorem c9_amended_backoff_monotone (now ts a b ia ib : Int) (policy : Option RetryPolicy)
    (ha : GetNextBackoff now a ts policy = (ia, true))
    (hb : GetNextBackoff now b ts policy = (ib, true)) :
    (1 ≤ (setDefaultRetryPolicyValue policy).backoffCoefficient →
      0 ≤ (setDefaultRetryPolicyValue policy).initialIntervalSeconds →
      a ≤ b → ia ≤ ib) ∧
    ia ≤ (setDefaultRetryPolicyValue policy).maximumIntervalSeconds := by
  have hval : ∀ (x : Int) (i : Int), GetNextBackoff now x ts policy = (i, true) →
      backoffIntervalCapped (setDefaultRetryPolicyValue policy) x = i := by
    intro x i h
    simp only [GetNextBackoff] at h
    split_ifs at h with h1 h2
    · exact absurd h (by simp)
    · exact absurd h (by simp)
    · exact (Prod.mk.injEq _ _ _ _ ▸ h).1
  have ha' := hval a ia ha
  have hb' := hval b ib hb
  constructor
  · intro hc hi hab
    rw [← ha', ← hb', backoffIntervalCapped_eq_min, backoffIntervalCapped_eq_min]
    refine min_le_min (le_refl _) ?_
    unfold backoffInterval
    have hc0 : (0 : ℚ) < (setDefaultRetryPolicyValue policy).backoffCoefficient :=
      lt_of_lt_of_le one_pos hc
    have hi0 : (0 : ℚ) ≤ ((setDefaultRetryPolicyValue policy).initialIntervalSeconds : ℚ) := by
      exact_mod_cast hi
    have hxa : (0 : ℚ) ≤ ((setDefaultRetryPolicyValue policy).initialIntervalSeconds : ℚ) *
        (setDefaultRetryPolicyValue policy).backoffCoefficient ^ a :=
      mul_nonneg hi0 (zpow_pos hc0 a).le
    have hxb : (0 : ℚ) ≤ ((setDefaultRetryPolicyValue policy).initialIntervalSeconds : ℚ) *
        (setDefaultRetryPolicyValue policy).backoffCoefficient ^ b :=
      mul_nonneg hi0 (zpow_pos hc0 b).le
    unfold ratTrunc
    rw [if_pos hxa, if_pos hxb]
    exact Int.floor_le_floor (mul_le_mul_of_nonneg_left (zpow_le_zpow_right₀ hc hab) hi0)
  · rw [← ha']
    exact backoffIntervalCapped_le_max _ _

/-- C9 amended witness: with the default policy, attempts 1 and 3 give
intervals 2 and 8; 2 ≤ 8 and 2 is within the default maximum 60. -/
theorem c9_amended_backoff_monotone_witness :
    GetNextBackoff 0 1 0 none = (2, true) ∧ GetNextBackoff 0 3 0 none = (8, true) ∧
    (2 : Int) ≤ 8 ∧ (2 : Int) ≤ (setDefaultRetryPolicyValue none).maximumIntervalSeconds := by
  have h1 : GetNextBackoff 0 1 0 none = (2, true) := by
    norm_num [GetNextBackoff, setDefaultRetryPolicyValue,
      defaultWorkerTaskBackoffRetryPolicy, backoffIntervalCapped, backoffInterval, ratTrunc]
  have h3 : GetNextBackoff 0 3 0 none = (8, true) := by
    norm_num [GetNextBackoff, setDefaultRetryPolicyValue,
      defaultWorkerTaskBackoffRetryPolicy, backoffIntervalCapped, backoffInterval, ratTrunc]
  refine ⟨h1, h3, ?_, ?_⟩
  · exact (c9_amended_backoff_monotone 0 0 1 3 2 8 none h1 h3).1
      (by norm_num [setDefaultRetryPolicyValue, defaultWorkerTaskBackoffRetryPolicy])
      (by norm_num [setDefaultRetryPolicyValue, defaultWorkerTaskBackoffRetryPolicy])
      (by norm_num)
  · exact (c9_amended_backoff_monotone 0 0 1 3 2 8 none h1 h3).2

/-- C10: the retry decision of the task processor, for Execute-phase tasks
included, is `GetNextBackoff` applied to the state config's
WaitUntilApiRetryPolicy, and changing the ExecuteApiRetryPolicy never
changes the decision. -/
theorem c10_retry_uses_waitUntil_policy (now : Int) (task : ImmediateTask)
    (info : AsyncStateExecutionInfoJson) (cfg : AsyncStateConfig)
    (h : info.stateConfig = some cfg) :
    processExecuteTaskRetryDecision now task info =
      GetNextBackoff now task.workerTaskBackoffInfo.completedAttempts
        task.workerTaskBackoffInfo.firstAttemptTimestampSeconds cfg.waitUntilApiRetryPolicy ∧
    ∀ p : Option RetryPolicy,
      processExecuteTaskRetryDecision now task
          { info with stateConfig := some { cfg with executeApiRetryPolicy := p } } =
        processExecuteTaskRetryDecision now task info := by
  constructor
  · simp [processExecuteTaskRetryDecision, checkRetry, h]
  · intro p
    simp [processExecuteTaskRetryDecision, checkRetry, h]

/-- C10 witness: on a concrete Execute-phase task whose config carries
distinct wait-until and execute retry policies, the decision equals
`GetNextBackoff` on the wait-until policy. -/
theorem c10_retry_uses_waitUntil_policy_witness :
    c10Info.stateConfig = some c10Cfg ∧
    processExecuteTaskRetryDecision 60 c10Task c10Info =
      GetNextBackoff 60 c10Task.workerTaskBackoffInfo.completedAttempts
        c10Task.workerTaskBackoffInfo.firstAttemptTimestampSeconds
        c10Cfg.waitUntilApiRetryPolicy :=
  ⟨rfl, (c10_retry_uses_waitUntil_policy 60 c10Task c10Info c10Cfg rfl).1⟩

/-- C6: a newly inserted state-execution row has WaitUntilStatus=Skipped
and ExecuteStatus=Running when its state config skips wait-until, and
WaitUntilStatus=Running and ExecuteStatus=Undefined otherwise; the
immediate task built together with it has type Execute in the former case
and WaitUntil in the latter. -/
theorem c6_insert_initial_statuses (stateId : String) (seq : Nat)
    (cfg : Option AsyncStateConfig) (input : String) (info : AsyncStateExecutionInfoJson)
    (shard : Int) :
    (getSkipWaitUntil cfg = true →
      (asyncStateExecutionRowForInsert stateId seq cfg input info).waitUntilStatus =
          statusSkipped ∧
      (asyncStateExecutionRowForInsert stateId seq cfg input info).executeStatus =
          statusRunning ∧
      (immediateTaskRowForInsert stateId seq cfg shard).taskType =
          ImmediateTaskType.execute) ∧
    (getSkipWaitUntil cfg = false →
      (asyncStateExecutionRowForInsert stateId seq cfg input info).waitUntilStatus =
          statusRunning ∧
      (asyncStateExecutionRowForInsert stateId seq cfg input info).executeStatus =
          statusUndefined ∧
      (immediateTaskRowForInsert stateId seq cfg shard).taskType =
          ImmediateTaskType.waitUntil) := by
  constructor <;> intro h <;>
    simp [asyncStateExecutionRowForInsert, immediateTaskRowForInsert, h]

/-- C6 witness: with SkipWaitUntil set, the inserted row is
Skipped/Running and the task type is Execute. -/
theorem c6_insert_initial_statuses_witness :
    getSkipWaitUntil (some { skipWaitUntil := some true }) = true ∧
    ((asyncStateExecutionRowForInsert "S" 1 (some { skipWaitUntil := some true }) "" {}).waitUntilStatus = statusSkipped ∧
     (asyncStateExecutionRowForInsert "S" 1 (some { skipWaitUntil := some true }) "" {}).executeStatus = statusRunning ∧
     (immediateTaskRowForInsert "S" 1 (some { skipWaitUntil := some true }) 1).taskType =
       ImmediateTaskType.execute) :=
  ⟨by decide, (c6_insert_initial_statuses "S" 1 (some { skipWaitUntil := some true }) "" {} 1).1
    (by decide)⟩

/-- C4: `StartProcess` on a (namespace, processId) whose latest-process
pointer already exists returns alreadyStarted=true with a nil error and an
unchanged database: the transaction rolled back, so no pointer, process,
state-execution or task row was durably inserted. -/
theorem c4_start_duplicate_rolls_back (db : EngineDB)
    (request : ProcessExecutionStartRequest) (prcExeId : String) (now : Int)
    (h : currentProcessExists db request.nameSpace request.processId = true) :
    startProcess db request prcExeId now = (db, none, true, none) := by
  simp [startProcess, h]

/-- C1 counterexample: the batch-abort update is not a write conditional
on a supplied PreviousVersion and does not fail when it affects a number
of rows different from one: on a concrete two-row table it changes both
rows (at unrelated stored versions 5 and 9) and returns them updated. -/
theorem c1_counterexample_batch_abort_not_versioned :
    (batchUpdateAsyncStateExecutionsToAbortRunning [c1RowA, c1RowB]).length = 2 ∧
    batchUpdateAsyncStateExecutionsToAbortRunning [c1RowA, c1RowB] =
      [{ c1RowA with version := 6, waitUntilStatus := 5 },
       { c1RowB with version := 10, executeStatus := 5 }] ∧
    { c1RowA with version := 6, waitUntilStatus := 5 } ≠ c1RowA ∧
    { c1RowB with version := 10, executeStatus := 5 } ≠ c1RowB :=
  ⟨by decide, by decide, by decide, by decide⟩

/-- C1 amended: the single-row updates used by ProcessWaitUntilExecution,
CompleteWaitUntilExecution and CompleteExecuteExecution are conditional on
the stored version equaling the supplied PreviousVersion: an update whose
WHERE clause matches a number of rows different from one fails with the
conditional-update-failure error, and on success the one matched row
(whose stored version necessarily equals PreviousVersion) gets version
PreviousVersion + 1, i.e. its version before plus exactly one, all other
rows unchanged.  The batch-abort update, by contrast, carries no
PreviousVersion: it is gated on a phase status being Running, never fails,
and bumps the version of each row it changes by exactly one, leaving rows
without a Running phase untouched. -/
theorem c1_amended_versioned_updates (tbl : List AsyncStateExecutionRow) (sid : String)
    (seq : Nat) (pv : Int) (st : StateExecutionUpdateStatus) (lf : Option String)
    (u : AsyncStateExecutionRowForUpdate) (w : AsyncStateExecutionRowForUpdateWithoutCommands)
    (r : AsyncStateExecutionRow) :
    (updateAsyncStateExecution tbl u =
      conditionalUpdateAsyncState tbl u.stateId u.stateIdSequence u.previousVersion
        u.status u.lastFailure) ∧
    (updateAsyncStateExecutionWithoutCommands tbl w =
      conditionalUpdateAsyncState tbl w.stateId w.stateIdSequence w.previousVersion
        w.status w.lastFailure) ∧
    (tbl.countP (fun x => matchesConditionalUpdate sid seq pv x) ≠ 1 →
      conditionalUpdateAsyncState tbl sid seq pv st lf =
        Except.error StoreError.conditionalUpdateFailure) ∧
    (∀ t', conditionalUpdateAsyncState tbl sid seq pv st lf = Except.ok t' →
      tbl.countP (fun x => matchesConditionalUpdate sid seq pv x) = 1 ∧
      t' = tbl.map (applyConditionalUpdate sid seq pv st lf) ∧
      ∀ x ∈ tbl,
        (matchesConditionalUpdate sid seq pv x = true →
          x.version = pv ∧
          (applyConditionalUpdate sid seq pv st lf x).version = x.version + 1) ∧
        (matchesConditionalUpdate sid seq pv x = false →
          applyConditionalUpdate sid seq pv st lf x = x)) ∧
    ((abortRunningRow r ≠ r → (abortRunningRow r).version = r.version + 1) ∧
     (r.waitUntilStatus ≠ statusRunning → r.executeStatus ≠ statusRunning →
       abortRunningRow r = r)) := by
  refine ⟨rfl, rfl, fun h => ?_, fun t' ht => ?_, ?_, fun hw he => ?_⟩
  · unfold conditionalUpdateAsyncState
    rw [if_neg]
    simp [h]
  · unfold conditionalUpdateAsyncState at ht
    split at ht
    case isTrue hc =>
      refine ⟨by simpa using hc, by simpa using ht.symm, fun x hx => ⟨fun hm => ?_, fun hm => ?_⟩⟩
      · have hv : x.version = pv := by
          have := hm
          unfold matchesConditionalUpdate at this
          simp only [Bool.and_eq_true, beq_iff_eq] at this
          exact this.2
        refine ⟨hv, ?_⟩
        unfold applyConditionalUpdate
        rw [if_pos hm]
        simp [hv]
      · unfold applyConditionalUpdate
        rw [if_neg (by simp [hm])]
    case isFalse => exact absurd ht (by simp)
  · intro hne
    unfold abortRunningRow at hne ⊢
    by_cases h1 : r.waitUntilStatus == 1 <;> by_cases h2 : r.executeStatus == 1 <;>
      simp [h1, h2] at hne ⊢
  · unfold abortRunningRow
    have h1 : (r.waitUntilStatus == 1) = false := by
      simpa [statusRunning] using hw
    have h2 : (r.executeStatus == 1) = false := by
      simpa [statusRunning] using he
    simp [h1, h2]

/-- C1 amended witness: on the empty table (zero matching rows) the
conditional update fails with the conditional-update-failure error. -/
theorem c1_amended_versioned_updates_witness :
    (([] : List AsyncStateExecutionRow).countP
        (fun x => matchesConditionalUpdate "a" 1 1 x) ≠ 1) ∧
    conditionalUpdateAsyncState [] "a" 1 1 StateExecutionUpdateStatus.completed none =
      Except.error StoreError.conditionalUpdateFailure :=
  ⟨by decide,
   (c1_amended_versioned_updates [] "a" 1 1 StateExecutionUpdateStatus.completed none
      { stateId := "a", stateIdSequence := 1,
        status := StateExecutionUpdateStatus.completed,
        waitUntilCommands := {}, waitUntilCommandResults := {},
        previousVersion := 1, lastFailure := none }
      { stateId := "a", stateIdSequence := 1,
        status := StateExecutionUpdateStatus.completed,
        previousVersion := 1, lastFailure := none }
      c1RowA).2.2.1 (by decide)⟩

/-- C4 witness: starting ("n", "p") a second time changes nothing and
reports alreadyStarted. -/
theorem c4_start_duplicate_rolls_back_witness :
    currentProcessExists c4Db c4Request.nameSpace c4Request.processId = true ∧
    startProcess c4Db c4Request "e1" 0 = (c4Db, none, true, none) :=
  ⟨by decide, c4_start_duplicate_rolls_back c4Db c4Request "e1" 0 (by decide)⟩

theorem isEmpty_eq_nil {α : Type} {l : List α} (h : l.isEmpty = true) : l = [] := by
  cases l with
  | nil => rfl
  | cons a t => simp [List.isEmpty] at h

theorem ne_nil_isEmpty_eq_false {α : Type} {l : List α} (h : l ≠ []) : l.isEmpty = false := by
  cases l with
  | nil => exact absurd rfl h
  | cons a t => rfl

theorem publishToLocalQueueTx_prcRow (msgs : List LocalQueueMessage) :
    ∀ db : ProcessTxState, (publishToLocalQueueTx db msgs).prcRow = db.prcRow := by
  induction msgs with
  | nil => intro db; rfl
  | cons m ms ih => intro db; rw [publishToLocalQueueTx]; exact ih _

theorem publishToLocalQueueTx_stateTable (msgs : List LocalQueueMessage) :
    ∀ db : ProcessTxState, (publishToLocalQueueTx db msgs).stateTable = db.stateTable := by
  induction msgs with
  | nil => intro db; rfl
  | cons m ms ih => intro db; rw [publishToLocalQueueTx]; exact ih _

theorem publishToLocalQueueTx_countP (p : ImmediateTaskRowForInsert → Bool)
    (hp : ∀ t : ImmediateTaskRowForInsert,
      t.taskType = ImmediateTaskType.newLocalQueueMessage → p t = false)
    (msgs : List LocalQueueMessage) :
    ∀ db : ProcessTxState,
      (publishToLocalQueueTx db msgs).immediateTasks.countP p = db.immediateTasks.countP p := by
  induction msgs with
  | nil => intro db; rfl
  | cons m ms ih =>
    intro db
    rw [publishToLocalQueueTx]
    rw [ih]
    have hfalse := hp
      { shardId := DefaultShardId, taskType := ImmediateTaskType.newLocalQueueMessage,
        stateId := "", stateIdSequence := 0,
        info := some { queueName := m.queueName, dedupId := m.dedupId.getD generatedUuid } }
      rfl
    simp [List.countP_append, List.countP_cons, hfalse]

theorem completeNewStateExecution_eq_none (m : PendingExecutionMap) (stateId : String)
    (seq : Nat) (h : pendingContains m stateId seq = false) :
    completeNewStateExecution m stateId seq = none := by
  induction m with
  | nil => rfl
  | cons kv rest ih =>
    obtain ⟨k, seqs⟩ := kv
    by_cases hk : k = stateId
    · rw [pendingContains, if_pos hk] at h
      rw [completeNewStateExecution, if_pos hk, h]
      simp
    · rw [pendingContains, if_neg hk] at h
      rw [completeNewStateExecution, if_neg hk, ih h]
      rfl

theorem applyThreadClose_status_or_empty (status0 : ProcessExecutionStatus) (wait0 : Bool)
    (maps2 : StateExecutionSequenceMaps) (decision : StateDecision) :
    (applyThreadClose status0 wait0 maps2 decision).status = status0 ∨
    (applyThreadClose status0 wait0 maps2 decision).maps.pendingExecutionMap = [] := by
  rcases decision with ⟨ns, tcd⟩
  rcases tcd with _ | tc
  · cases wait0 <;> rcases hpm : maps2.pendingExecutionMap with _ | ⟨kv, rest⟩ <;>
      simp [applyThreadClose, hpm]
  · rcases tc with ⟨ct⟩
    cases ct <;> cases wait0 <;>
      rcases hpm : maps2.pendingExecutionMap with _ | ⟨kv, rest⟩ <;>
      simp [applyThreadClose, hpm]

/-- C2: whenever the complete-execute transaction commits on a Running
process, a written status other than Running comes with an empty written
pending-execution map: the process leaves Running exactly in transactions
whose resulting pending map is empty (force close clears the map; graceful
completion fires only when the map is empty). -/
theorem c2_terminal_implies_pending_empty (db : ProcessTxState)
    (request : CompleteExecuteExecutionRequest) (db' : ProcessTxState)
    (resp : CompleteExecuteExecutionResponse)
    (hrun : db.prcRow.status = ProcessExecutionStatus.running)
    (hok : doCompleteExecuteExecutionTx db request = Except.ok (db', resp))
    (hterm : db'.prcRow.status ≠ ProcessExecutionStatus.running) :
    db'.prcRow.seqMaps.pendingExecutionMap = [] := by
  simp only [doCompleteExecuteExecutionTx] at hok
  split at hok
  · exact absurd hok (by simp)
  · split at hok
    · exact absurd hok (by simp)
    · rw [Except.ok.injEq, Prod.mk.injEq] at hok
      obtain ⟨hdb, -⟩ := hok
      subst hdb
      rw [publishToLocalQueueTx_prcRow] at hterm ⊢
      rcases applyThreadClose_status_or_empty db.prcRow.status db.prcRow.waitToComplete _
          request.stateDecision with h1 | h2
      · exact absurd (h1.trans hrun) hterm
      · exact h2

/-- C2 witness: a force-complete on the last pending state commits with
status Completed and an empty pending map. -/
theorem c2_terminal_implies_pending_empty_witness :
    c2Db.prcRow.status = ProcessExecutionStatus.running ∧
    doCompleteExecuteExecutionTx c2Db c2Request =
      Except.ok (c2DbOut, { hasNewImmediateTask := false }) ∧
    c2DbOut.prcRow.status ≠ ProcessExecutionStatus.running ∧
    c2DbOut.prcRow.seqMaps.pendingExecutionMap = [] :=
  ⟨rfl, by rfl, by decide,
   c2_terminal_implies_pending_empty c2Db c2Request c2DbOut { hasNewImmediateTask := false }
     rfl (by rfl) (by decide)⟩

/-- C5: when the state execution being completed is present in the table
at the expected version but absent from the pending-execution map,
`CompleteExecuteExecution` returns the data-corruption error carrying the
offending maps and rolls the transaction back: the process row, the
state-execution rows and the task and local-queue tables are unchanged. -/
theorem c5_absent_pending_is_data_corruption (db : ProcessTxState)
    (request : CompleteExecuteExecutionRequest)
    (hupd : db.stateTable.countP (fun x => matchesConditionalUpdate request.stateId
        request.stateIdSequence request.prepare.previousVersion x) = 1)
    (habs : pendingContains db.prcRow.seqMaps.pendingExecutionMap request.stateId
        request.stateIdSequence = false) :
    CompleteExecuteExecution db request =
      (db, Except.error (StoreError.dataCorruption request.stateId request.stateIdSequence
        db.prcRow.seqMaps)) := by
  have h1 : updateAsyncStateExecutionWithoutCommands db.stateTable
      { stateId := request.stateId, stateIdSequence := request.stateIdSequence,
        status := StateExecutionUpdateStatus.completed,
        previousVersion := request.prepare.previousVersion, lastFailure := none } =
      Except.ok (db.stateTable.map (applyConditionalUpdate request.stateId
        request.stateIdSequence request.prepare.previousVersion
        StateExecutionUpdateStatus.completed none)) := by
    unfold updateAsyncStateExecutionWithoutCommands conditionalUpdateAsyncState
    rw [if_pos (by simp [hupd])]
  have h2 := completeNewStateExecution_eq_none _ _ _ habs
  simp only [CompleteExecuteExecution, doCompleteExecuteExecutionTx, h1, h2]

/-- C5 witness: completing ("S", 1) while only ("T", 1) is pending yields
the data-corruption error and leaves the database unchanged. -/
theorem c5_absent_pending_is_data_corruption_witness :
    c5Db.stateTable.countP (fun x => matchesConditionalUpdate c5Request.stateId
        c5Request.stateIdSequence c5Request.prepare.previousVersion x) = 1 ∧
    pendingContains c5Db.prcRow.seqMaps.pendingExecutionMap c5Request.stateId
        c5Request.stateIdSequence = false ∧
    CompleteExecuteExecution c5Db c5Request =
      (c5Db, Except.error (StoreError.dataCorruption c5Request.stateId
        c5Request.stateIdSequence c5Db.prcRow.seqMaps)) :=
  ⟨by decide, by decide,
   c5_absent_pending_is_data_corruption c5Db c5Request (by decide) (by decide)⟩

theorem applyConditionalUpdate_stateId (sid : String) (seq : Nat) (pv : Int)
    (st : StateExecutionUpdateStatus) (lf : Option String) (x : AsyncStateExecutionRow) :
    (applyConditionalUpdate sid seq pv st lf x).stateId = x.stateId := by
  unfold applyConditionalUpdate
  split <;> rfl

theorem applyConditionalUpdate_stateIdSequence (sid : String) (seq : Nat) (pv : Int)
    (st : StateExecutionUpdateStatus) (lf : Option String) (x : AsyncStateExecutionRow) :
    (applyConditionalUpdate sid seq pv st lf x).stateIdSequence = x.stateIdSequence := by
  unfold applyConditionalUpdate
  split <;> rfl

/-- C7: when the worker returns an EMPTY_COMMAND request,
`doProcessWaitUntilExecutionTx` performs CompleteWaitUntilExecution: the
transaction commits, the state-execution row (present at the supplied
PreviousVersion) is updated to ExecuteRunning at PreviousVersion + 1,
exactly one immediate task of type Execute for that state execution is
inserted, and the response reports HasNewImmediateTask = true. -/
theorem c7_empty_command_completes_wait_until (db : ProcessTxState)
    (request : ProcessWaitUntilExecutionRequest)
    (hEmpty : request.commandRequest.waitingType = CommandWaitingType.emptyCommand)
    (hMatch : db.stateTable.countP (fun r => matchesConditionalUpdate request.stateId
        request.stateIdSequence request.prepare.previousVersion r) = 1)
    (hVer : ∀ r ∈ db.stateTable, r.stateId = request.stateId →
        r.stateIdSequence = request.stateIdSequence →
        r.version = request.prepare.previousVersion) :
    ∃ db' resp, doProcessWaitUntilExecutionTx db request = Except.ok (db', resp) ∧
      resp.hasNewImmediateTask = true ∧
      (∀ r ∈ db'.stateTable, r.stateId = request.stateId →
        r.stateIdSequence = request.stateIdSequence →
        r.version = request.prepare.previousVersion + 1 ∧ r.executeStatus = statusRunning) ∧
      db'.immediateTasks.countP (fun t => t.taskType == ImmediateTaskType.execute &&
          t.stateId == request.stateId && t.stateIdSequence == request.stateIdSequence) =
        db.immediateTasks.countP (fun t => t.taskType == ImmediateTaskType.execute &&
          t.stateId == request.stateId && t.stateIdSequence == request.stateIdSequence) + 1 := by
  have hBeq : (request.commandRequest.waitingType == CommandWaitingType.emptyCommand) = true := by
    simp [hEmpty]
  have hupd : updateAsyncStateExecutionWithoutCommands db.stateTable
      { stateId := request.stateId, stateIdSequence := request.stateIdSequence,
        status := StateExecutionUpdateStatus.executeRunning,
        previousVersion := request.prepare.previousVersion, lastFailure := none } =
      Except.ok (db.stateTable.map (applyConditionalUpdate request.stateId
        request.stateIdSequence request.prepare.previousVersion
        StateExecutionUpdateStatus.executeRunning none)) := by
    unfold updateAsyncStateExecutionWithoutCommands conditionalUpdateAsyncState
    rw [if_pos (by simp [hMatch])]
  refine ⟨publishToLocalQueueTx
      { db with
        stateTable := db.stateTable.map (applyConditionalUpdate request.stateId
          request.stateIdSequence request.prepare.previousVersion
          StateExecutionUpdateStatus.executeRunning none)
        immediateTasks := db.immediateTasks ++
          [{ shardId := request.taskShardId, taskType := ImmediateTaskType.execute,
             stateId := request.stateId, stateIdSequence := request.stateIdSequence,
             info := none }] }
      request.publishToLocalQueue,
    { hasNewImmediateTask := true }, ?_, rfl, ?_, ?_⟩
  · simp [doProcessWaitUntilExecutionTx, hBeq, CompleteWaitUntilExecution, hupd]
  · intro r hr hid hseq
    rw [publishToLocalQueueTx_stateTable] at hr
    obtain ⟨x, hx, rfl⟩ := List.mem_map.mp hr
    have hidx : x.stateId = request.stateId :=
      (applyConditionalUpdate_stateId _ _ _ _ _ x).symm.trans hid
    have hseqx : x.stateIdSequence = request.stateIdSequence :=
      (applyConditionalUpdate_stateIdSequence _ _ _ _ _ x).symm.trans hseq
    have hv := hVer x hx hidx hseqx
    have hm : matchesConditionalUpdate request.stateId request.stateIdSequence
        request.prepare.previousVersion x = true := by
      simp [matchesConditionalUpdate, hidx, hseqx, hv]
    constructor
    · unfold applyConditionalUpdate
      rw [if_pos hm]
    · unfold applyConditionalUpdate
      rw [if_pos hm]
      rfl
  · rw [publishToLocalQueueTx_countP _ (fun t ht => by simp [ht])]
    simp [List.countP_append, List.countP_cons]

/-- C7 witness: an EMPTY_COMMAND result on ("S", 1) at version 2 commits,
moves the row to ExecuteRunning at version 3, inserts one Execute task and
reports a new immediate task. -/
theorem c7_empty_command_completes_wait_until_witness :
    c7Request.commandRequest.waitingType = CommandWaitingType.emptyCommand ∧
    c7Db.stateTable.countP (fun r => matchesConditionalUpdate c7Request.stateId
        c7Request.stateIdSequence c7Request.prepare.previousVersion r) = 1 ∧
    (∀ r ∈ c7Db.stateTable, r.stateId = c7Request.stateId →
        r.stateIdSequence = c7Request.stateIdSequence →
        r.version = c7Request.prepare.previousVersion) ∧
    (∃ db' resp, doProcessWaitUntilExecutionTx c7Db c7Request = Except.ok (db', resp) ∧
      resp.hasNewImmediateTask = true ∧
      (∀ r ∈ db'.stateTable, r.stateId = c7Request.stateId →
        r.stateIdSequence = c7Request.stateIdSequence →
        r.version = c7Request.prepare.previousVersion + 1 ∧ r.executeStatus = statusRunning) ∧
      db'.immediateTasks.countP (fun t => t.taskType == ImmediateTaskType.execute &&
          t.stateId == c7Request.stateId && t.stateIdSequence == c7Request.stateIdSequence) =
        c7Db.immediateTasks.countP (fun t => t.taskType == ImmediateTaskType.execute &&
          t.stateId == c7Request.stateId && t.stateIdSequence == c7Request.stateIdSequence) + 1) :=
  ⟨rfl, by decide, by decide,
   c7_empty_command_completes_wait_until c7Db c7Request rfl (by decide) (by decide)⟩

/-- C8: a FORCE_COMPLETE_PROCESS or FORCE_FAIL_PROCESS decision (with no
next states) arriving while other state executions remain pending commits
with process status Completed respectively Failed and an empty pending
map, and the whole state table of the process goes through the single
batch-abort statement, under which every phase status currently Running,
and only those, becomes Aborted with the row version incremented by one. -/
theorem c8_force_close_aborts_running (db : ProcessTxState)
    (request : CompleteExecuteExecutionRequest) (t1 : List AsyncStateExecutionRow)
    (pending1 : PendingExecutionMap) (ct : ThreadCloseType)
    (hnext : request.stateDecision.nextStates = [])
    (hclose : request.stateDecision.threadCloseDecision = some { closeType := ct })
    (hct : ct = ThreadCloseType.forceCompleteProcess ∨ ct = ThreadCloseType.forceFailProcess)
    (ht1 : updateAsyncStateExecutionWithoutCommands db.stateTable
      { stateId := request.stateId, stateIdSequence := request.stateIdSequence,
        status := StateExecutionUpdateStatus.completed,
        previousVersion := request.prepare.previousVersion, lastFailure := none } =
      Except.ok t1)
    (hpend : completeNewStateExecution db.prcRow.seqMaps.pendingExecutionMap request.stateId
      request.stateIdSequence = some pending1)
    (hne : pending1 ≠ []) :
    ∃ db' resp, doCompleteExecuteExecutionTx db request = Except.ok (db', resp) ∧
      db'.prcRow.status = (if ct = ThreadCloseType.forceCompleteProcess then
        ProcessExecutionStatus.completed else ProcessExecutionStatus.failed) ∧
      db'.prcRow.seqMaps.pendingExecutionMap = [] ∧
      db'.stateTable = batchUpdateAsyncStateExecutionsToAbortRunning t1 ∧
      (∀ r : AsyncStateExecutionRow,
        ((abortRunningRow r).waitUntilStatus =
          if r.waitUntilStatus = statusRunning then statusAborted else r.waitUntilStatus) ∧
        ((abortRunningRow r).executeStatus =
          if r.executeStatus = statusRunning then statusAborted else r.executeStatus) ∧
        ((abortRunningRow r).version =
          if r.waitUntilStatus = statusRunning ∨ r.executeStatus = statusRunning then
            r.version + 1 else r.version)) := by
  have hie : pending1.isEmpty = false := ne_nil_isEmpty_eq_false hne
  have houtcome : applyThreadClose db.prcRow.status db.prcRow.waitToComplete
      { db.prcRow.seqMaps with pendingExecutionMap := pending1 } request.stateDecision =
      { status := if ct = ThreadCloseType.forceCompleteProcess then
          ProcessExecutionStatus.completed else ProcessExecutionStatus.failed
        waitToComplete := db.prcRow.waitToComplete
        maps := { db.prcRow.seqMaps with pendingExecutionMap := [] }
        toAbort := true } := by
    rcases hct with rfl | rfl <;> simp [applyThreadClose, hclose, hie]
  refine ⟨publishToLocalQueueTx
      { prcRow :=
          { db.prcRow with
            status := if ct = ThreadCloseType.forceCompleteProcess then
              ProcessExecutionStatus.completed else ProcessExecutionStatus.failed
            waitToComplete := db.prcRow.waitToComplete
            seqMaps := { db.prcRow.seqMaps with pendingExecutionMap := [] } }
        stateTable := batchUpdateAsyncStateExecutionsToAbortRunning t1
        immediateTasks := db.immediateTasks
        localQueue := db.localQueue }
      request.publishToLocalQueue,
    { hasNewImmediateTask := !request.publishToLocalQueue.isEmpty }, ?_, ?_, ?_, ?_, ?_⟩
  · simp [doCompleteExecuteExecutionTx, ht1, hpend, hnext, applyNextStates, houtcome]
  · rw [publishToLocalQueueTx_prcRow]
  · rw [publishToLocalQueueTx_prcRow]
  · rw [publishToLocalQueueTx_stateTable]
  · intro r
    unfold abortRunningRow statusRunning statusAborted
    by_cases h1 : r.waitUntilStatus = 1 <;> by_cases h2 : r.executeStatus = 1 <;>
      simp [h1, h2]

/-- C8 witness: force-failing via ("S1", 1) while ("S2", 1) is pending
commits with status Failed, an empty pending map, and the batch-abort of
the updated table, under which the running "S2" becomes Aborted at
version 2. -/
theorem c8_force_close_aborts_running_witness :
    c8Request.stateDecision.nextStates = [] ∧
    c8Request.stateDecision.threadCloseDecision =
      some { closeType := ThreadCloseType.forceFailProcess } ∧
    updateAsyncStateExecutionWithoutCommands c8Db.stateTable
      { stateId := c8Request.stateId, stateIdSequence := c8Request.stateIdSequence,
        status := StateExecutionUpdateStatus.completed,
        previousVersion := c8Request.prepare.previousVersion, lastFailure := none } =
      Except.ok c8T1 ∧
    completeNewStateExecution c8Db.prcRow.seqMaps.pendingExecutionMap c8Request.stateId
      c8Request.stateIdSequence = some [("S2", [1])] ∧
    ([("S2", [1])] : PendingExecutionMap) ≠ [] ∧
    (∃ db' resp, doCompleteExecuteExecutionTx c8Db c8Request = Except.ok (db', resp) ∧
      db'.prcRow.status = (if ThreadCloseType.forceFailProcess =
          ThreadCloseType.forceCompleteProcess then
        ProcessExecutionStatus.completed else ProcessExecutionStatus.failed) ∧
      db'.prcRow.seqMaps.pendingExecutionMap = [] ∧
      db'.stateTable = batchUpdateAsyncStateExecutionsToAbortRunning c8T1 ∧
      (∀ r : AsyncStateExecutionRow,
        ((abortRunningRow r).waitUntilStatus =
          if r.waitUntilStatus = statusRunning then statusAborted else r.waitUntilStatus) ∧
        ((abortRunningRow r).executeStatus =
          if r.executeStatus = statusRunning then statusAborted else r.executeStatus) ∧
        ((abortRunningRow r).version =
          if r.waitUntilStatus = statusRunning ∨ r.executeStatus = statusRunning then
            r.version + 1 else r.version))) :=
  ⟨rfl, rfl, by rfl, by rfl, by decide,
   c8_force_close_aborts_running c8Db c8Request c8T1 [("S2", [1])]
     ThreadCloseType.forceFailProcess rfl rfl (Or.inr rfl) (by rfl) (by rfl) (by decide)⟩

end Xdb
